import Mathlib

/-!
Verification of the resume-parser service (src/main.py) against its
specification.  The Python code is shallowly embedded: pure helpers become
Lean functions over `String`/`List Char`, the per-file pipeline of the
batch endpoint becomes a function from an uploaded-file record (carrying
oracles for the external document libraries and the hosted LLM transport)
to a per-file outcome together with a trace of filesystem/downstream
events, and the endpoint itself becomes a function from the ordered list
of uploads to the response record.

Model conventions, stated once here:
* Python strings are modelled as Lean `String` (lists of unicode scalar
  values); `len` is `String.length`.
* `str.strip()` is modelled over the ASCII whitespace characters
  (space, tab, newline, carriage return, vertical tab, form feed); the
  unicode whitespace extension of Python is outside the model.
* `str.lower()` is modelled by `Char.toLower` (ASCII case folding).
* `json.loads` is modelled by `jsonLoads` below: a recursive-descent
  scanner producing the same value and the same error positions as the
  CPython pure-python scanner, restricted to integer numeric literals
  (fractional and exponent forms, `NaN`/`Infinity`, and surrogate-pair
  `\uXXXX` escapes are outside the model); diagnostic messages follow
  CPython, with the `repr` of the offending character omitted.
-/

namespace ResumeParser

/-! ### Python string primitives -/

/-- Characters stripped by Python `str.strip()` (ASCII fragment). -/
def isPyWs (c : Char) : Bool :=
  c == ' ' || c == '\t' || c == '\n' || c == '\r' || c == '\x0b' || c == '\x0c'

/-- Left strip: drop leading whitespace. -/
def lstripL (l : List Char) : List Char := l.dropWhile isPyWs

/-- Right strip: drop trailing whitespace. -/
def rstripL (l : List Char) : List Char := (l.reverse.dropWhile isPyWs).reverse

/-- Python `str.strip()` on a character list. -/
def stripL (l : List Char) : List Char := lstripL (rstripL l)

/-- Python `str.strip()`. -/
def pyStrip (s : String) : String := ⟨stripL s.data⟩

/-- One fuel-indexed pass of Python `str.replace(pat, rep)`: replace every
non-overlapping occurrence of `pat`, scanning left to right.  The fuel is
always instantiated with the length of the scanned list, which suffices
because every step consumes at least one character. -/
def replaceChars (pat rep : List Char) : Nat → List Char → List Char
  | _, [] => []
  | 0, l => l
  | fuel + 1, c :: cs =>
    if !pat.isEmpty && List.isPrefixOf pat (c :: cs) then
      rep ++ replaceChars pat rep fuel (cs.drop (pat.length - 1))
    else
      c :: replaceChars pat rep fuel cs

/-- Python `s.replace(pat, rep)` (all occurrences; `pat` nonempty in every
use below). -/
def pyReplace (s pat rep : String) : String :=
  ⟨replaceChars pat.data rep.data s.data.length s.data⟩

/-- Python `s.startswith(pre)`. -/
def pyStartsWith (s pre : String) : Bool := List.isPrefixOf pre.data s.data

/-- Executable substring search on character lists. -/
def hasSubList (pat : List Char) : List Char → Bool
  | [] => pat.isEmpty
  | c :: cs => List.isPrefixOf pat (c :: cs) || hasSubList pat cs

/-- Python `pat in s` (substring containment). -/
def pyContains (s pat : String) : Bool := hasSubList pat.data s.data

/-- Python `s.lower()` (ASCII fragment). -/
def pyLower (s : String) : String := ⟨s.data.map Char.toLower⟩

/-! ### `pathlib.Path` name and suffix -/

/-- Split a character list on a separator character. -/
def splitOnSep (sep : Char) : List Char → List (List Char)
  | [] => [[]]
  | c :: cs =>
    if c == sep then
      [] :: splitOnSep sep cs
    else
      match splitOnSep sep cs with
      | h :: t => (c :: h) :: t
      | [] => [[c]]

/-- `PurePosixPath(s).name`: the last path component, with empty and `.`
components discarded during parsing. -/
def pathName (s : String) : List Char :=
  let comps := (splitOnSep '/' s.data).filter fun c => !c.isEmpty && c != ['.']
  (comps.getLast?).getD []

/-- Index of the last `.` in a character list, if any. -/
def lastDotIdx : List Char → Option Nat
  | [] => none
  | c :: cs =>
    match lastDotIdx cs with
    | some i => some (i + 1)
    | none => if c == '.' then some 0 else none

/-- `PurePosixPath(s).suffix`: the final extension of the name, empty when
the last dot is at position 0 or at the very end (CPython:
`0 < i < len(name) - 1`). -/
def pathSuffix (s : String) : String :=
  let name := pathName s
  match lastDotIdx name with
  | some i => if 0 < i && i + 1 < name.length then ⟨name.drop i⟩ else ""
  | none => ""

/-! ### `validate_file_format` (src/main.py lines 201-209) -/

/-- `validate_file_format(filename)`: empty filename is rejected, otherwise
the lowercased `Path(filename).suffix` must be `.pdf`, `.docx` or `.doc`. -/
def validate_file_format (filename : String) : Bool :=
  if filename == "" then
    false
  else
    let file_ext := pyLower (pathSuffix filename)
    file_ext == ".pdf" || file_ext == ".docx" || file_ext == ".doc"

/-! ### JSON values and a model of `json.loads` -/

/-- JSON values as produced by `json.loads` (numbers restricted to
integers; see the model conventions above). -/
inductive JValue where
  | null : JValue
  | bool : Bool → JValue
  | num : Int → JValue
  | str : String → JValue
  | arr : List JValue → JValue
  | obj : List (String × JValue) → JValue

/-- A JSON decode error: CPython `JSONDecodeError` reduced to its message
and character position. -/
structure JErr where
  msg : String
  pos : Nat
deriving DecidableEq

/-- Whitespace skipped by the CPython json scanner (`' \t\n\r'`). -/
def isJsonWs (c : Char) : Bool :=
  c == ' ' || c == '\t' || c == '\n' || c == '\r'

/-- Skip json whitespace, tracking the character position. -/
def skipJsonWs : List Char → Nat → List Char × Nat
  | [], p => ([], p)
  | c :: cs, p => if isJsonWs c then skipJsonWs cs (p + 1) else (c :: cs, p)

/-- Hexadecimal digit value (`int(c, 16)` on one character), written over
the code point: digits are 48-57, lowercase a-f are 97-102, uppercase A-F
are 65-70. -/
def hexVal (c : Char) : Option Nat :=
  let n := c.toNat
  if 48 ≤ n ∧ n ≤ 57 then some (n - 48)
  else if 97 ≤ n ∧ n ≤ 102 then some (n - 87)
  else if 65 ≤ n ∧ n ≤ 70 then some (n - 55)
  else none

/-- CPython `py_scanstring`: scan a JSON string body.  `startPos` is the
position of the opening quote (used by the unterminated-string error),
`pos` the position of the next unread character, `acc` the reversed
content scanned so far.  Returns the string, the unread characters and
the position one past the closing quote. -/
def scanJsonString (startPos : Nat) : List Char → Nat → List Char →
    Except JErr (String × List Char × Nat)
  | _, _, [] => .error ⟨"Unterminated string starting at", startPos⟩
  | acc, pos, '"' :: cs => .ok (⟨acc.reverse⟩, cs, pos + 1)
  | acc, pos, '\\' :: '"' :: cs => scanJsonString startPos ('"' :: acc) (pos + 2) cs
  | acc, pos, '\\' :: '\\' :: cs => scanJsonString startPos ('\\' :: acc) (pos + 2) cs
  | acc, pos, '\\' :: '/' :: cs => scanJsonString startPos ('/' :: acc) (pos + 2) cs
  | acc, pos, '\\' :: 'b' :: cs => scanJsonString startPos ('\x08' :: acc) (pos + 2) cs
  | acc, pos, '\\' :: 'f' :: cs => scanJsonString startPos ('\x0c' :: acc) (pos + 2) cs
  | acc, pos, '\\' :: 'n' :: cs => scanJsonString startPos ('\n' :: acc) (pos + 2) cs
  | acc, pos, '\\' :: 'r' :: cs => scanJsonString startPos ('\r' :: acc) (pos + 2) cs
  | acc, pos, '\\' :: 't' :: cs => scanJsonString startPos ('\t' :: acc) (pos + 2) cs
  | acc, pos, '\\' :: 'u' :: h1 :: h2 :: h3 :: h4 :: cs =>
    match hexVal h1, hexVal h2, hexVal h3, hexVal h4 with
    | some a, some b, some c, some d =>
      scanJsonString startPos (Char.ofNat (((a * 16 + b) * 16 + c) * 16 + d) :: acc) (pos + 6) cs
    | _, _, _, _ => .error ⟨"Invalid \\uXXXX escape", pos + 1⟩
  | _, pos, '\\' :: _ => .error ⟨"Invalid \\escape", pos + 1⟩
  | acc, pos, c :: cs =>
    if c.toNat < 0x20 then .error ⟨"Invalid control character at", pos⟩
    else scanJsonString startPos (c :: acc) (pos + 1) cs

/-- Take a run of decimal digits. -/
def takeDigits : List Char → List Char × List Char
  | [] => ([], [])
  | c :: cs =>
    if c.isDigit then
      let (ds, rest) := takeDigits cs
      (c :: ds, rest)
    else ([], c :: cs)

/-- Digits to a natural number. -/
def digitsToNat (ds : List Char) : Nat :=
  ds.foldl (fun n c => n * 10 + (c.toNat - '0'.toNat)) 0

/-- Scan the integer part of a JSON number beginning at `pos` (`startPos`
is where the number, including a possible minus sign, began; errors are
reported there, matching the scanner falling through to `Expecting
value`).  Numbers with a fractional or exponent part are outside the
model and rejected with a distinguished message. -/
def scanJsonIntPart (startPos pos : Nat) (neg : Bool) :
    List Char → Except JErr (JValue × List Char × Nat)
  | '0' :: cs =>
    match cs with
    | c :: _ =>
      if c == '.' || c == 'e' || c == 'E' then
        .error ⟨"model restriction: non-integer JSON number", pos⟩
      else .ok (.num 0, cs, pos + 1)
    | [] => .ok (.num 0, [], pos + 1)
  | c :: cs =>
    if c.isDigit then
      let (ds, rest) := takeDigits cs
      match rest with
      | r :: _ =>
        if r == '.' || r == 'e' || r == 'E' then
          .error ⟨"model restriction: non-integer JSON number", pos⟩
        else
          let n : Int := Int.ofNat (digitsToNat (c :: ds))
          .ok (.num (if neg then -n else n), rest, pos + 1 + ds.length)
      | [] =>
        let n : Int := Int.ofNat (digitsToNat (c :: ds))
        .ok (.num (if neg then -n else n), [], pos + 1 + ds.length)
    else .error ⟨"Expecting value", startPos⟩
  | [] => .error ⟨"Expecting value", startPos⟩

/-- Scan a JSON number (integer model). -/
def scanJsonNumber (pos : Nat) : List Char → Except JErr (JValue × List Char × Nat)
  | '-' :: cs => scanJsonIntPart pos (pos + 1) true cs
  | l => scanJsonIntPart pos pos false l

/-- Insert a key into the pairs of an object under construction, with
CPython `dict` semantics: an existing key keeps its place and takes the
new value, a new key is appended. -/
def insertPair (ps : List (String × JValue)) (k : String) (v : JValue) :
    List (String × JValue) :=
  if ps.any (fun p => p.1 == k) then
    ps.map fun p => if p.1 == k then (k, v) else p
  else ps ++ [(k, v)]

/-- The state of the recursive-descent scanner: about to scan a value, an
object (just after `{`), the members of an object (just after the opening
quote of the next key, whose position is recorded), an array (just after
`[`), or the elements of an array. -/
inductive ScanMode where
  | value : ScanMode
  | objStart : ScanMode
  | objMembers : List (String × JValue) → Nat → ScanMode
  | arrStart : ScanMode
  | arrElems : List JValue → ScanMode

/-- The CPython scanner (`scan_once`, `JSONObject`, `JSONArray`) as one
fuel-indexed function, structurally recursive on the fuel so that it
reduces definitionally; `jsonLoads` supplies enough fuel that it is never
exhausted. -/
def scanJson : Nat → ScanMode → List Char → Nat → Except JErr (JValue × List Char × Nat)
  | 0, _, _, pos => .error ⟨"model: fuel exhausted", pos⟩
  | _ + 1, .value, [], pos => .error ⟨"Expecting value", pos⟩
  | _ + 1, .value, '"' :: cs, pos =>
    (match scanJsonString pos [] (pos + 1) cs with
     | .ok (s, rest, p) => .ok (.str s, rest, p)
     | .error e => .error e)
  | fuel + 1, .value, '{' :: cs, pos => scanJson fuel .objStart cs (pos + 1)
  | fuel + 1, .value, '[' :: cs, pos => scanJson fuel .arrStart cs (pos + 1)
  | _ + 1, .value, 'n' :: 'u' :: 'l' :: 'l' :: cs, pos => .ok (.null, cs, pos + 4)
  | _ + 1, .value, 't' :: 'r' :: 'u' :: 'e' :: cs, pos => .ok (.bool true, cs, pos + 4)
  | _ + 1, .value, 'f' :: 'a' :: 'l' :: 's' :: 'e' :: cs, pos => .ok (.bool false, cs, pos + 5)
  | _ + 1, .value, c :: cs, pos =>
    if c == '-' || c.isDigit then scanJsonNumber pos (c :: cs)
    else .error ⟨"Expecting value", pos⟩
  | fuel + 1, .objStart, l, pos =>
    (match skipJsonWs l pos with
     | ('}' :: cs, p1) => .ok (.obj [], cs, p1 + 1)
     | ('"' :: cs, p1) => scanJson fuel (.objMembers [] p1) cs (p1 + 1)
     | (_, p1) => .error ⟨"Expecting property name enclosed in double quotes", p1⟩)
  | fuel + 1, .objMembers pairs keyQuotePos, l, pos =>
    (match scanJsonString keyQuotePos [] pos l with
     | .error e => .error e
     | .ok (key, rest, p) =>
       match skipJsonWs rest p with
       | (':' :: cs, p1) =>
         let (l2, p2) := skipJsonWs cs (p1 + 1)
         match scanJson fuel .value l2 p2 with
         | .error e => .error e
         | .ok (v, rest2, p3) =>
           let pairs' := insertPair pairs key v
           match skipJsonWs rest2 p3 with
           | ('}' :: cs2, p4) => .ok (.obj pairs', cs2, p4 + 1)
           | (',' :: cs2, p4) =>
             (match skipJsonWs cs2 (p4 + 1) with
              | ('"' :: cs3, p5) => scanJson fuel (.objMembers pairs' p5) cs3 (p5 + 1)
              | (_, p5) => .error ⟨"Expecting property name enclosed in double quotes", p5⟩)
           | (_, p4) => .error ⟨"Expecting \x27,\x27 delimiter", p4⟩
       | (_, p1) => .error ⟨"Expecting \x27:\x27 delimiter", p1⟩)
  | fuel + 1, .arrStart, l, pos =>
    (match skipJsonWs l pos with
     | (']' :: cs, p1) => .ok (.arr [], cs, p1 + 1)
     | (l1, p1) => scanJson fuel (.arrElems []) l1 p1)
  | fuel + 1, .arrElems acc, l, pos =>
    (match scanJson fuel .value l pos with
     | .error e => .error e
     | .ok (v, rest, p) =>
       match skipJsonWs rest p with
       | (']' :: cs, p1) => .ok (.arr (acc ++ [v]), cs, p1 + 1)
       | (',' :: cs, p1) =>
         let (l2, p2) := skipJsonWs cs (p1 + 1)
         scanJson fuel (.arrElems (acc ++ [v])) l2 p2
       | (_, p1) => .error ⟨"Expecting \x27,\x27 delimiter", p1⟩)

/-- CPython `scan_once`: scan one JSON value. -/
def scanJsonValue (fuel : Nat) (l : List Char) (pos : Nat) :
    Except JErr (JValue × List Char × Nat) :=
  scanJson fuel .value l pos

/-- `json.loads`: skip leading whitespace, scan one value, require only
whitespace to remain (`Extra data` otherwise). -/
def jsonLoads (s : String) : Except JErr JValue :=
  let (l1, p1) := skipJsonWs s.data 0
  match scanJsonValue (s.length * 3 + 8) l1 p1 with
  | .error e => .error e
  | .ok (v, rest, p) =>
    let (rest2, p2) := skipJsonWs rest p
    match rest2 with
    | [] => .ok v
    | _ => .error ⟨"Extra data", p2⟩

/-- `str(e)` for a `JSONDecodeError`: CPython renders
`"{msg}: line {lineno} column {colno} (char {pos})"`, where line and
column are computed from the document and the position; the document text
itself is never part of the rendering. -/
def jsonErrStr (doc : String) (e : JErr) : String :=
  let pre := doc.data.take e.pos
  let lineno := pre.count '\n' + 1
  let colno := (pre.reverse.takeWhile (fun c => c != '\n')).length + 1
  e.msg ++ ": line " ++ toString lineno ++ " column " ++ toString colno ++
    " (char " ++ toString e.pos ++ ")"

/-- Python `dict.get(k)` on a decoded JSON object. -/
def dictLookup (ps : List (String × JValue)) (k : String) : Option JValue :=
  match ps.find? (fun p => p.1 == k) with
  | some p => some p.2
  | none => none

/-- Python `dict.get(k, default)`. -/
def dictGet (ps : List (String × JValue)) (k : String) (d : JValue) : JValue :=
  (dictLookup ps k).getD d

/-- Python `d[k] = v` on a decoded JSON object. -/
def dictSet (ps : List (String × JValue)) (k : String) (v : JValue) :
    List (String × JValue) :=
  insertPair ps k v

/-- Python truthiness of a decoded JSON value (`bool(v)`). -/
def pyTruthy : JValue → Bool
  | .null => false
  | .bool b => b
  | .num n => n != 0
  | .str s => s != ""
  | .arr xs => !xs.isEmpty
  | .obj ps => !ps.isEmpty

/-- The Python type name of a decoded JSON value, as used in
`AttributeError` messages. -/
def pyTypeName : JValue → String
  | .null => "NoneType"
  | .bool _ => "bool"
  | .num _ => "int"
  | .str _ => "str"
  | .arr _ => "list"
  | .obj _ => "dict"

/-! ### LLM client adapter (src/main.py lines 350-399) -/

/-- Result of a Python call that either returns or raises `HTTPException`
with a status code and a detail string. -/
inductive PyRes (α : Type) where
  | ok : α → PyRes α
  | httpExc : Nat → String → PyRes α
deriving DecidableEq

/-- Fence stripping applied to the stripped reply text (src/main.py lines
380-383): when the text starts with a labeled fence, every occurrence of
the labeled and of the bare marker is removed and the result stripped;
when it starts with a bare fence, every occurrence of the bare marker is
removed and the result stripped; otherwise the text is untouched. -/
def stripFences (t : String) : String :=
  if pyStartsWith t "```json" then
    pyStrip (pyReplace (pyReplace t "```json" "") "```" "")
  else if pyStartsWith t "```" then
    pyStrip (pyReplace t "```" "")
  else t

/-- The reply post-processing of `parse_resume_with_llm`: strip the raw
reply (line 377), then strip code fences (lines 380-383). -/
def llmPostprocess (raw : String) : String := stripFences (pyStrip raw)

/-- `parse_resume_with_llm` (src/main.py lines 350-399).  The prompt
construction and the hosted chat-completion call are abstracted into the
`transport` oracle: `.ok raw` is the reply text
`chat_completion.choices[0].message.content`, `.error e` an exception
raised by the client (caught by the generic handler, line 395).  A reply
whose post-processed text is not valid JSON raises the 500
`HTTPException` of line 391, whose detail embeds `str(e)` of the decode
error — not the reply text. -/
def parse_resume_with_llm (transport : Except String String) : PyRes JValue :=
  match transport with
  | .error e => .httpExc 500 ("Error in LLM processing: " ++ e)
  | .ok raw =>
    let response_text := llmPostprocess raw
    match jsonLoads response_text with
    | .ok parsed_data => .ok parsed_data
    | .error e =>
      .httpExc 500 ("Failed to parse LLM response as JSON: " ++ jsonErrStr response_text e)

/-! ### Text extractors (src/main.py lines 96-223)

The document libraries (`PyPDF2`, `python-docx`) and the pure-regex
cleanup pass are abstracted into a per-file oracle of type
`Except String String`: `.ok text` is the text assembled by the extractor
before its final `strip()` (for DOCX, after `clean_extracted_text`),
`.error e` an exception raised while reading the document (its `str`). -/

/-- `extract_text_from_pdf`: strip the assembled page text; wrap any
library exception into a 422 `HTTPException`. -/
def extract_text_from_pdf (lib : Except String String) : PyRes String :=
  match lib with
  | .ok text => .ok (pyStrip text)
  | .error e => .httpExc 422 ("Error reading PDF: " ++ e)

/-- `extract_text_from_docx`: strip the assembled and cleaned text; wrap
any library exception into a 422 `HTTPException`. -/
def extract_text_from_docx (lib : Except String String) : PyRes String :=
  match lib with
  | .ok text => .ok (pyStrip text)
  | .error e => .httpExc 422 ("Error reading DOCX: " ++ e)

/-- `extract_text_from_file` (src/main.py lines 211-223): route on the
lowercased suffix, raising a 415 `HTTPException` for any other
extension. -/
def extract_text_from_file (lib : Except String String) (filename : String) : PyRes String :=
  let file_ext := pyLower (pathSuffix filename)
  if file_ext == ".pdf" then
    extract_text_from_pdf lib
  else if file_ext == ".docx" || file_ext == ".doc" then
    extract_text_from_docx lib
  else
    .httpExc 415 ("Unsupported file format: " ++ file_ext ++
      ". Allowed formats: PDF, DOCX, DOC")

/-! ### Batch orchestrator (src/main.py lines 436-566) -/

/-- One uploaded file together with the oracles for its external
interactions: `readExc` is `some m` when `await file.read()` (or the
write to the temporary file) raises an exception with message `m` inside
the staging block of lines 488-491, `libExtract` drives the document
library, `llmTransport` drives the chat-completion call. -/
structure UploadFile where
  filename : String
  readExc : Option String
  libExtract : Except String String
  llmTransport : Except String String

/-- Observable per-file events of the orchestrator loop body:
`tempCreated` when `tempfile.NamedTemporaryFile(delete=False)` creates
the on-disk temporary file, `extractCalled`/`llmCalled` when
`extract_text_from_file`/`parse_resume_with_llm` are invoked, and
`tempDeleted` when the `finally` block unlinks the temporary file. -/
inductive Event where
  | tempCreated : Event
  | extractCalled : Event
  | llmCalled : Event
  | tempDeleted : Event
deriving DecidableEq

/-- A per-file error record as appended to `errors` (filename, message,
optional not-a-resume reason, and the status classification). -/
structure ErrorEntry where
  file : String
  error : String
  reason : Option JValue
  status_code : Nat

/-- The outcome of one iteration of the orchestrator loop: the parsed
object appended to `results`, or the record appended to `errors`. -/
inductive FileOutcome where
  | success : List (String × JValue) → FileOutcome
  | failure : ErrorEntry → FileOutcome

/-- The loop body of `parse_resume` for one file (src/main.py lines
475-539), returning the outcome together with the trace of events.
Faithful to the source control flow:

* invalid format (line 479): 415 error, nothing staged, nothing called;
* staging (line 488): `NamedTemporaryFile(delete=False)` creates the file
  on disk before the upload is read, and `temp_file_path` is assigned only
  after the write — so when the read raises, the generic handler (line
  527) records a 500 error and the `finally` block (line 535) sees
  `temp_file_path is None` and deletes nothing;
* extraction errors surface as `HTTPException` (line 521 handler);
* fewer than 50 stripped characters: 422 error (line 496), no LLM call;
* a decoded reply that is not a dict raises `AttributeError` at
  `parsed_data.get` (line 508), landing in the generic 500 handler;
* a falsy `is_resume` yields the 422 record of lines 509-514;
* otherwise `parsed_data["filename"]` is set and the result recorded. -/
def processFile (f : UploadFile) : FileOutcome × List Event :=
  if validate_file_format f.filename = false then
    (.failure ⟨f.filename, "Unsupported file format. Allowed: PDF, DOCX, DOC", none, 415⟩,
     [])
  else
    match f.readExc with
    | some m =>
      (.failure ⟨f.filename, "Unexpected error: " ++ m, none, 500⟩,
       [.tempCreated])
    | none =>
      match extract_text_from_file f.libExtract f.filename with
      | .httpExc code detail =>
        (.failure ⟨f.filename, detail, none, code⟩,
         [.tempCreated, .extractCalled, .tempDeleted])
      | .ok resume_text =>
        if resume_text = "" ∨ (pyStrip resume_text).length < 50 then
          (.failure ⟨f.filename, "Could not extract sufficient text from the file", none, 422⟩,
           [.tempCreated, .extractCalled, .tempDeleted])
        else
          match parse_resume_with_llm f.llmTransport with
          | .httpExc code detail =>
            (.failure ⟨f.filename, detail, none, code⟩,
             [.tempCreated, .extractCalled, .llmCalled, .tempDeleted])
          | .ok parsed_data =>
            match parsed_data with
            | .obj kvs =>
              if pyTruthy (dictGet kvs "is_resume" (.bool true)) = false then
                (.failure ⟨f.filename, "Uploaded file does not appear to be a resume",
                   some (dictGet kvs "not_resume_reason" (.str "Unknown")), 422⟩,
                 [.tempCreated, .extractCalled, .llmCalled, .tempDeleted])
              else
                (.success (dictSet kvs "filename" (.str f.filename)),
                 [.tempCreated, .extractCalled, .llmCalled, .tempDeleted])
            | other =>
              (.failure ⟨f.filename,
                 "Unexpected error: \x27" ++ pyTypeName other ++
                   "\x27 object has no attribute \x27get\x27", none, 500⟩,
               [.tempCreated, .extractCalled, .llmCalled, .tempDeleted])

/-- One step of the accumulation loop: append the outcome of a file to
`results` or to `errors` (src/main.py lines 519, 480, 497, 509, 522,
528). -/
def batchStep (acc : List (List (String × JValue)) × List ErrorEntry) (f : UploadFile) :
    List (List (String × JValue)) × List ErrorEntry :=
  match (processFile f).1 with
  | .success d => (acc.1 ++ [d], acc.2)
  | .failure e => (acc.1, acc.2 ++ [e])

/-- The accumulation loop of `parse_resume` over the uploaded files. -/
def batchLoop (files : List UploadFile) : List (List (String × JValue)) × List ErrorEntry :=
  files.foldl batchStep ([], [])

/-- The JSON body of the `/parse-resume` response together with the HTTP
status code (`results` is a JSON value because its shape depends on the
number of files; `errors` is `None` or the list of error records). -/
structure BatchResponse where
  status : String
  message : String
  total_files : Nat
  successful : Nat
  failed : Nat
  results : JValue
  errors : Option (List ErrorEntry)
  http_status : Nat

/-- The aggregate status derivation of src/main.py lines 541-553, on the
lengths of the accumulated `results` and `errors` lists. -/
def aggregateStatus (nResults nErrors : Nat) : Nat × String :=
  if nResults = 0 ∧ 0 < nErrors then
    (400, "All files failed to process")
  else if 0 < nErrors ∧ 0 < nResults then
    (207, "Partial success - some files processed successfully")
  else
    (200, "All files processed successfully")

/-- `parse_resume` (src/main.py lines 436-566): the zero-file rejection
(lines 457-469), the per-file loop, the aggregate status derivation
(lines 541-553) and the response construction (lines 555-566). -/
def parse_resume (files : List UploadFile) : BatchResponse :=
  match files with
  | [] =>
    { status := "error"
      message := "No files provided"
      total_files := 0
      successful := 0
      failed := 0
      results := .null
      errors := none
      http_status := 400 }
  | _ :: _ =>
    let results := (batchLoop files).1
    let errors := (batchLoop files).2
    let code_msg := aggregateStatus results.length errors.length
    { status := if 0 < results.length then "success" else "error"
      message := code_msg.2
      total_files := files.length
      successful := results.length
      failed := errors.length
      results :=
        if 1 < files.length then
          .arr (results.map JValue.obj)
        else
          match results with
          | r :: _ => .obj r
          | [] => .null
      errors := if errors.isEmpty then none else some errors
      http_status := code_msg.1 }

/-! ### Concrete uploads and claim-side constructions used by the theorems -/

/-- A sample extracted text comfortably above the 50-character
threshold. -/
def sampleText : String :=
  "Jane Doe Software Engineer with ten years of experience in distributed systems and machine learning."

/-- A file that passes every stage: accepted extension, long extracted
text, well-formed downstream reply. -/
def goodFile : UploadFile :=
  { filename := "resume.pdf"
    readExc := none
    libExtract := Except.ok sampleText
    llmTransport := Except.ok "\x7b\"is_resume\": true\x7d" }

/-- A file with a rejected extension. -/
def badFile : UploadFile :=
  { filename := "notes.txt"
    readExc := none
    libExtract := Except.ok ""
    llmTransport := Except.error "unused" }

/-- A file whose staging succeeds but whose extracted text strips to fewer
than 50 characters. -/
def shortFile : UploadFile :=
  { filename := "short.pdf"
    readExc := none
    libExtract := Except.ok "Too short"
    llmTransport := Except.error "unused" }

/-- A file whose downstream reply lacks the `is_resume` key entirely. -/
def missingKeyFile : UploadFile :=
  { filename := "mk.pdf"
    readExc := none
    libExtract := Except.ok sampleText
    llmTransport := Except.ok "\x7b\"contact_info\": \x7b\"name\": \"Jane\"\x7d\x7d" }

/-- A file whose downstream reply carries an explicit falsy `is_resume`
and a reason. -/
def notResumeFile : UploadFile :=
  { filename := "inv.pdf"
    readExc := none
    libExtract := Except.ok sampleText
    llmTransport := Except.ok
      "\x7b\"is_resume\": false, \"not_resume_reason\": \"It is an invoice\"\x7d" }

/-- A file whose upload read raises inside the staging block: the
temporary file has already been created on disk, but `temp_file_path` is
still `None`, so the `finally` block deletes nothing. -/
def leakFile : UploadFile :=
  { filename := "cv.docx"
    readExc := some "client disconnected"
    libExtract := Except.ok ""
    llmTransport := Except.error "unused" }

/-- `replaceChars` at its canonical fuel (the length of the scanned
list); `(pyReplace s pat rep).data` is definitionally
`replF pat.data rep.data s.data`. -/
def replF (pat rep l : List Char) : List Char :=
  replaceChars pat rep l.length l

/-- The bare fence marker ``` as characters. -/
def fenceM : List Char := '`' :: '`' :: '`' :: []

/-- The labeled fence marker, as characters. -/
def fenceJ : List Char := '`' :: '`' :: '`' :: 'j' :: 's' :: 'o' :: 'n' :: []

/-- The labeled markdown code-fence wrapping of a reply described by the
claim (spec-side construction of the adapter input). -/
def fencedWrapJson (r : String) : String := "```json\n" ++ r ++ "\n```"

/-- The unlabeled markdown code-fence wrapping of a reply described by
the claim (spec-side construction of the adapter input). -/
def fencedWrapPlain (r : String) : String := "```\n" ++ r ++ "\n```"

/-! ### Helper lemmas on the batch loop -/

/-- The parsed object of a successful outcome, if any. -/
def outSuccess : FileOutcome → Option (List (String × JValue))
  | .success d => some d
  | .failure _ => none

/-- The error record of a failed outcome, if any. -/
def outFailure : FileOutcome → Option ErrorEntry
  | .success _ => none
  | .failure e => some e

theorem foldl_batchStep (files : List UploadFile)
    (rs : List (List (String × JValue))) (es : List ErrorEntry) :
    List.foldl batchStep (rs, es) files =
      (rs ++ (batchLoop files).1, es ++ (batchLoop files).2) := by
  induction files generalizing rs es with
  | nil => simp [batchLoop]
  | cons f fs ih =>
    have hloop : batchLoop (f :: fs) = List.foldl batchStep (batchStep ([], []) f) fs := rfl
    cases h : (processFile f).1 with
    | success d =>
      have hstep : ∀ a b, batchStep (a, b) f = (a ++ [d], b) := by
        intro a b; simp [batchStep, h]
      rw [List.foldl_cons, hstep, ih, hloop, hstep, ih]
      simp
    | failure e =>
      have hstep : ∀ a b, batchStep (a, b) f = (a, b ++ [e]) := by
        intro a b; simp [batchStep, h]
      rw [List.foldl_cons, hstep, ih, hloop, hstep, ih]
      simp

theorem batchLoop_cons (f : UploadFile) (fs : List UploadFile) :
    batchLoop (f :: fs) =
      match (processFile f).1 with
      | .success d => (d :: (batchLoop fs).1, (batchLoop fs).2)
      | .failure e => ((batchLoop fs).1, e :: (batchLoop fs).2) := by
  have : batchLoop (f :: fs) = List.foldl batchStep (batchStep ([], []) f) fs := rfl
  rw [this]
  cases h : (processFile f).1 with
  | success d => simp [batchStep, h, foldl_batchStep]
  | failure e => simp [batchStep, h, foldl_batchStep]

/-- Every file contributes exactly one entry: the lengths of the two
accumulated lists sum to the number of files. -/
theorem batchLoop_length (files : List UploadFile) :
    (batchLoop files).1.length + (batchLoop files).2.length = files.length := by
  induction files with
  | nil => rfl
  | cons f fs ih =>
    rw [batchLoop_cons]
    cases h : (processFile f).1 <;> simp <;> omega

/-- The accumulated lists are the order-preserving projections of the
per-file outcomes. -/
theorem batchLoop_eq_filterMap (files : List UploadFile) :
    batchLoop files =
      (files.filterMap (fun f => outSuccess (processFile f).1),
       files.filterMap (fun f => outFailure (processFile f).1)) := by
  induction files with
  | nil => rfl
  | cons f fs ih =>
    rw [batchLoop_cons, ih]
    cases h : (processFile f).1 with
    | success d => simp [List.filterMap_cons, h, outSuccess, outFailure]
    | failure e => simp [List.filterMap_cons, h, outSuccess, outFailure]

/-! ### C1 -/

/-- C1: for every non-empty batch submitted to POST /parse-resume, the
response satisfies `successful + failed = total_files`, and the entries of
`results` (likewise of `errors`) are exactly the per-file outcomes in
submission order (an order-preserving projection of the file list). -/
theorem C1_batch_invariant (files : List UploadFile) (h : files ≠ []) :
    (parse_resume files).successful + (parse_resume files).failed
        = (parse_resume files).total_files ∧
    (batchLoop files).1 = files.filterMap (fun f => outSuccess (processFile f).1) ∧
    (batchLoop files).2 = files.filterMap (fun f => outFailure (processFile f).1) := by
  match files with
  | [] => exact absurd rfl h
  | f :: fs =>
    refine ⟨?_, ?_, ?_⟩
    · have hs : (parse_resume (f :: fs)).successful = (batchLoop (f :: fs)).1.length := rfl
      have hf : (parse_resume (f :: fs)).failed = (batchLoop (f :: fs)).2.length := rfl
      have ht : (parse_resume (f :: fs)).total_files = (f :: fs).length := rfl
      rw [hs, hf, ht, batchLoop_length]
    · rw [batchLoop_eq_filterMap]
    · rw [batchLoop_eq_filterMap]

theorem C1_batch_invariant_witness :
    (parse_resume [goodFile, badFile]).successful + (parse_resume [goodFile, badFile]).failed
        = (parse_resume [goodFile, badFile]).total_files ∧
    (batchLoop [goodFile, badFile]).1
        = [goodFile, badFile].filterMap (fun f => outSuccess (processFile f).1) ∧
    (batchLoop [goodFile, badFile]).2
        = [goodFile, badFile].filterMap (fun f => outFailure (processFile f).1) :=
  C1_batch_invariant [goodFile, badFile] (by simp)

/-! ### Response field lemmas (non-empty batches) -/

theorem ps_successful (f : UploadFile) (fs : List UploadFile) :
    (parse_resume (f :: fs)).successful = (batchLoop (f :: fs)).1.length := rfl

theorem ps_failed (f : UploadFile) (fs : List UploadFile) :
    (parse_resume (f :: fs)).failed = (batchLoop (f :: fs)).2.length := rfl

theorem ps_http_status (f : UploadFile) (fs : List UploadFile) :
    (parse_resume (f :: fs)).http_status
      = (aggregateStatus (batchLoop (f :: fs)).1.length (batchLoop (f :: fs)).2.length).1 := rfl

theorem ps_status (f : UploadFile) (fs : List UploadFile) :
    (parse_resume (f :: fs)).status
      = if 0 < (batchLoop (f :: fs)).1.length then "success" else "error" := rfl

theorem ps_results (f : UploadFile) (fs : List UploadFile) :
    (parse_resume (f :: fs)).results
      = if 1 < (f :: fs).length then
          .arr ((batchLoop (f :: fs)).1.map JValue.obj)
        else
          match (batchLoop (f :: fs)).1 with
          | r :: _ => .obj r
          | [] => .null := rfl

theorem aggregateStatus_allFailed (nErrors : Nat) (h : 0 < nErrors) :
    aggregateStatus 0 nErrors = (400, "All files failed to process") := by
  simp [aggregateStatus, h]

theorem aggregateStatus_mixed (nResults nErrors : Nat)
    (hr : 0 < nResults) (he : 0 < nErrors) :
    aggregateStatus nResults nErrors
      = (207, "Partial success - some files processed successfully") := by
  simp [aggregateStatus, he, hr]
  omega

theorem aggregateStatus_allOk (nResults : Nat) :
    aggregateStatus nResults 0 = (200, "All files processed successfully") := by
  simp [aggregateStatus]

/-! ### C2 -/

/-- C2: the aggregate HTTP status of POST /parse-resume: an empty file
list yields 400 with zero counts and null results/errors; a non-empty
batch with no success yields 400; at least one success and at least one
failure yields 207; no failure yields 200; and for the concrete pair of
one fully valid file and one rejected-extension file the status is 207
with exactly one entry on each side. -/
theorem C2_status_derivation (files : List UploadFile) (hne : files ≠ []) :
    (parse_resume [] = ⟨"error", "No files provided", 0, 0, 0, .null, none, 400⟩) ∧
    ((batchLoop files).1 = [] → (parse_resume files).http_status = 400) ∧
    ((batchLoop files).1 ≠ [] → (batchLoop files).2 ≠ [] →
        (parse_resume files).http_status = 207) ∧
    ((batchLoop files).2 = [] → (parse_resume files).http_status = 200) ∧
    ((parse_resume [goodFile, badFile]).http_status = 207 ∧
     (parse_resume [goodFile, badFile]).successful = 1 ∧
     (parse_resume [goodFile, badFile]).failed = 1) := by
  match files with
  | [] => exact absurd rfl hne
  | f :: fs =>
    refine ⟨rfl, ?_, ?_, ?_, by decide, by decide, by decide⟩
    · intro hr
      have hlen := batchLoop_length (f :: fs)
      rw [hr] at hlen
      have he : 0 < (batchLoop (f :: fs)).2.length := by simp at hlen; omega
      rw [ps_http_status, hr]
      rw [show (([] : List (List (String × JValue)))).length = 0 from rfl,
          aggregateStatus_allFailed _ he]
    · intro hr he
      rw [ps_http_status,
          aggregateStatus_mixed _ _ (List.length_pos.mpr hr) (List.length_pos.mpr he)]
    · intro he
      rw [ps_http_status, he]
      rw [show (([] : List ErrorEntry)).length = 0 from rfl, aggregateStatus_allOk]

theorem C2_status_derivation_witness :
    (parse_resume [] = ⟨"error", "No files provided", 0, 0, 0, .null, none, 400⟩) ∧
    ((batchLoop [goodFile, badFile]).1 = [] →
        (parse_resume [goodFile, badFile]).http_status = 400) ∧
    ((batchLoop [goodFile, badFile]).1 ≠ [] → (batchLoop [goodFile, badFile]).2 ≠ [] →
        (parse_resume [goodFile, badFile]).http_status = 207) ∧
    ((batchLoop [goodFile, badFile]).2 = [] →
        (parse_resume [goodFile, badFile]).http_status = 200) ∧
    ((parse_resume [goodFile, badFile]).http_status = 207 ∧
     (parse_resume [goodFile, badFile]).successful = 1 ∧
     (parse_resume [goodFile, badFile]).failed = 1) :=
  C2_status_derivation [goodFile, badFile] (by simp)

/-! ### C3 -/

/-- C3: `validate_file_format` accepts exactly the non-empty filenames
whose lowercased suffix is `.pdf`, `.docx` or `.doc`; and a file failing
the check is recorded as a 415 error with an empty event trace — nothing
is staged to temporary storage and no extraction function runs. -/
theorem C3_format_validation :
    (∀ fn : String, validate_file_format fn = true ↔
        (fn ≠ "" ∧ (pyLower (pathSuffix fn) = ".pdf" ∨ pyLower (pathSuffix fn) = ".docx" ∨
          pyLower (pathSuffix fn) = ".doc"))) ∧
    (∀ f : UploadFile, validate_file_format f.filename = false →
        processFile f =
          (.failure ⟨f.filename, "Unsupported file format. Allowed: PDF, DOCX, DOC", none, 415⟩,
           [])) := by
  constructor
  · intro fn
    by_cases h : fn = ""
    · subst h
      simp [validate_file_format]
    · simp [validate_file_format, h]
      tauto
  · intro f hf
    simp [processFile, hf]

theorem C3_format_validation_witness :
    (validate_file_format "resume.pdf" = true ↔
        ("resume.pdf" ≠ "" ∧ (pyLower (pathSuffix "resume.pdf") = ".pdf" ∨
          pyLower (pathSuffix "resume.pdf") = ".docx" ∨
          pyLower (pathSuffix "resume.pdf") = ".doc"))) ∧
    processFile badFile =
      (.failure ⟨badFile.filename, "Unsupported file format. Allowed: PDF, DOCX, DOC", none, 415⟩,
       []) :=
  ⟨C3_format_validation.1 "resume.pdf", C3_format_validation.2 badFile (by rfl)⟩

/-! ### C4 -/

/-- C4: a file whose extracted text, after stripping, is shorter than 50
characters is recorded as a 422 content-sufficiency error and the
downstream LLM call never happens for it. -/
theorem C4_insufficient_text (f : UploadFile) (t : String)
    (hv : validate_file_format f.filename = true)
    (hr : f.readExc = none)
    (he : extract_text_from_file f.libExtract f.filename = .ok t)
    (hlen : (pyStrip t).length < 50) :
    (processFile f).1 =
      .failure ⟨f.filename, "Could not extract sufficient text from the file", none, 422⟩ ∧
    Event.llmCalled ∉ (processFile f).2 := by
  have hpf : processFile f =
      (.failure ⟨f.filename, "Could not extract sufficient text from the file", none, 422⟩,
       [.tempCreated, .extractCalled, .tempDeleted]) := by
    simp only [processFile, hv, hr, he]
    rw [if_neg (by simp)]
    rw [if_pos (Or.inr hlen)]
  constructor
  · rw [hpf]
  · rw [hpf]
    show Event.llmCalled ∉ [Event.tempCreated, Event.extractCalled, Event.tempDeleted]
    decide

theorem C4_insufficient_text_witness :
    (processFile shortFile).1 =
      .failure ⟨shortFile.filename, "Could not extract sufficient text from the file",
        none, 422⟩ ∧
    Event.llmCalled ∉ (processFile shortFile).2 :=
  C4_insufficient_text shortFile "Too short" (by rfl) (by rfl) (by rfl) (by decide)

/-! ### C7 -/

/-- C7: the `results` field is the bare parsed object when exactly one
file was submitted and it succeeded, null when exactly one file was
submitted and it failed, and a list whenever more than one file was
submitted. -/
theorem C7_results_shape (f : UploadFile) (fs : List UploadFile) :
    (∀ d, (processFile f).1 = .success d → (parse_resume [f]).results = .obj d) ∧
    (∀ e, (processFile f).1 = .failure e → (parse_resume [f]).results = .null) ∧
    (1 < (f :: fs).length →
        (parse_resume (f :: fs)).results
          = .arr ((batchLoop (f :: fs)).1.map JValue.obj)) := by
  refine ⟨?_, ?_, ?_⟩
  · intro d hd
    rw [ps_results]
    have hloop : batchLoop [f] = ([d], []) := by
      rw [batchLoop_cons, hd]; rfl
    rw [if_neg (by simp), hloop]
  · intro e he
    rw [ps_results]
    have hloop : batchLoop [f] = ([], [e]) := by
      rw [batchLoop_cons, he]; rfl
    rw [if_neg (by simp), hloop]
  · intro hlen
    rw [ps_results, if_pos hlen]

theorem C7_results_shape_witness :
    (parse_resume [goodFile]).results
      = .obj [("is_resume", .bool true), ("filename", .str "resume.pdf")] ∧
    (parse_resume [badFile]).results = .null :=
  ⟨(C7_results_shape goodFile []).1
      [("is_resume", .bool true), ("filename", .str "resume.pdf")] (by rfl),
   (C7_results_shape badFile []).2.1
      ⟨"notes.txt", "Unsupported file format. Allowed: PDF, DOCX, DOC", none, 415⟩ (by rfl)⟩

/-! ### C9 -/

/-- C9: for a file that reaches the downstream call and gets back a JSON
object, a missing `is_resume` key defaults to true and the file is
recorded as a success (as is any truthy value); only an explicit falsy
`is_resume` produces the 422 not-a-resume error, which carries
`not_resume_reason` (defaulting to "Unknown"). -/
theorem C9_is_resume_default (f : UploadFile) (t : String) (kvs : List (String × JValue))
    (hv : validate_file_format f.filename = true)
    (hr : f.readExc = none)
    (he : extract_text_from_file f.libExtract f.filename = .ok t)
    (hlen : 50 ≤ (pyStrip t).length)
    (hllm : parse_resume_with_llm f.llmTransport = .ok (.obj kvs)) :
    (dictLookup kvs "is_resume" = none →
        (processFile f).1 = .success (dictSet kvs "filename" (.str f.filename))) ∧
    (∀ v, dictLookup kvs "is_resume" = some v → pyTruthy v = true →
        (processFile f).1 = .success (dictSet kvs "filename" (.str f.filename))) ∧
    (∀ v, dictLookup kvs "is_resume" = some v → pyTruthy v = false →
        (processFile f).1 = .failure ⟨f.filename,
          "Uploaded file does not appear to be a resume",
          some (dictGet kvs "not_resume_reason" (.str "Unknown")), 422⟩) := by
  have htne : ¬ (t = "" ∨ (pyStrip t).length < 50) := by
    rintro (rfl | hk)
    · simp [pyStrip, stripL, lstripL, rstripL] at hlen
    · omega
  refine ⟨?_, ?_, ?_⟩
  · intro hk
    simp only [processFile, hv, hr, he]
    rw [if_neg (by simp), if_neg htne]
    simp only [hllm]
    rw [if_neg (by simp [dictGet, hk, pyTruthy])]
  · intro v hk htr
    simp only [processFile, hv, hr, he]
    rw [if_neg (by simp), if_neg htne]
    simp only [hllm]
    rw [if_neg (by simp [dictGet, hk, htr])]
  · intro v hk htr
    simp only [processFile, hv, hr, he]
    rw [if_neg (by simp), if_neg htne]
    simp only [hllm]
    rw [if_pos (by simp [dictGet, hk, htr])]

theorem C9_is_resume_default_witness :
    (processFile missingKeyFile).1
      = .success (dictSet [("contact_info", .obj [("name", .str "Jane")])]
          "filename" (.str missingKeyFile.filename)) ∧
    (processFile notResumeFile).1
      = .failure ⟨notResumeFile.filename, "Uploaded file does not appear to be a resume",
          some (dictGet [("is_resume", .bool false),
            ("not_resume_reason", .str "It is an invoice")] "not_resume_reason"
            (.str "Unknown")), 422⟩ :=
  ⟨(C9_is_resume_default missingKeyFile sampleText
      [("contact_info", .obj [("name", .str "Jane")])]
      (by rfl) (by rfl) (by rfl) (by decide) (by rfl)).1 (by rfl),
   (C9_is_resume_default notResumeFile sampleText
      [("is_resume", .bool false), ("not_resume_reason", .str "It is an invoice")]
      (by rfl) (by rfl) (by rfl) (by decide) (by rfl)).2.2
      (.bool false) (by rfl) (by rfl)⟩

/-! ### C10 -/

/-- C10: the top-level `status` field is "success" exactly when at least
one file succeeded, and "error" exactly when no file succeeded — in
particular a partial-success batch still reports "success", and the
zero-file rejection reports "error". -/
theorem C10_status_field (files : List UploadFile) :
    ((parse_resume files).status = "success" ↔ (batchLoop files).1 ≠ []) ∧
    ((parse_resume files).status = "error" ↔ (batchLoop files).1 = []) := by
  match files with
  | [] =>
    constructor
    · constructor
      · intro h
        exact absurd h (by decide)
      · intro h
        exact absurd rfl h
    · constructor
      · intro _
        rfl
      · intro _
        rfl
  | f :: fs =>
    rw [ps_status]
    by_cases h : 0 < (batchLoop (f :: fs)).1.length
    · rw [if_pos h]
      have hne : (batchLoop (f :: fs)).1 ≠ [] := List.length_pos.mp h
      constructor
      · exact ⟨fun _ => hne, fun _ => rfl⟩
      · exact ⟨fun hc => absurd hc (by decide), fun hc => absurd hc hne⟩
    · rw [if_neg h]
      have hnil : (batchLoop (f :: fs)).1 = [] := by
        rcases List.eq_nil_or_concat (batchLoop (f :: fs)).1 with hn | ⟨L, b, hL⟩
        · exact hn
        · exact absurd (by simp [hL]) h
      constructor
      · exact ⟨fun hc => absurd hc (by decide), fun hc => absurd hnil hc⟩
      · exact ⟨fun _ => hnil, fun _ => rfl⟩

/-! ### C8 -/

/-- C8 counterexample: for a file with a valid extension whose upload
read raises inside the staging block, the trace records the creation of
the temporary file but no deletion — the temporary file survives the
request, refuting cleanup on every exit path. -/
theorem C8_temp_cleanup_cex :
    (processFile leakFile).2 = [Event.tempCreated] ∧
    Event.tempDeleted ∉ (processFile leakFile).2 :=
  ⟨rfl, by decide⟩

/-- On every path where staging completed, the trace is one of the two
cleanup-terminated shapes. -/
theorem processFile_trace (f : UploadFile)
    (hv : validate_file_format f.filename = true) (hr : f.readExc = none) :
    (processFile f).2 = [.tempCreated, .extractCalled, .tempDeleted] ∨
    (processFile f).2 = [.tempCreated, .extractCalled, .llmCalled, .tempDeleted] := by
  simp only [processFile, hv, hr]
  rw [if_neg (by simp)]
  split
  · exact Or.inl rfl
  · split
    · exact Or.inl rfl
    · split
      · exact Or.inr rfl
      · split
        · split
          · exact Or.inr rfl
          · exact Or.inr rfl
        · exact Or.inr rfl

/-- C8 (amended): for every file that passes validation and whose staging
block completes (the upload read and the write to the temporary file do
not raise), the temporary file is created and deleted again before the
loop moves on, on every exit path — extraction failure, insufficient
content, downstream failure, semantic rejection, malformed reply shape,
or success.  When the staging block itself raises, the already-created
temporary file is leaked (see the counterexample). -/
theorem C8_temp_cleanup_amended (f : UploadFile)
    (hv : validate_file_format f.filename = true) (hr : f.readExc = none) :
    Event.tempCreated ∈ (processFile f).2 ∧
    (processFile f).2.getLast? = some Event.tempDeleted := by
  rcases processFile_trace f hv hr with h | h <;> rw [h] <;> exact ⟨by decide, by decide⟩

theorem C8_temp_cleanup_amended_witness :
    Event.tempCreated ∈ (processFile goodFile).2 ∧
    (processFile goodFile).2.getLast? = some Event.tempDeleted :=
  C8_temp_cleanup_amended goodFile (by rfl) (by rfl)

/-! ### C6 -/

/-- C6 counterexample: a reply that is not JSON is rejected with a 500
`HTTPException` whose detail is built from `str(e)` of the
`JSONDecodeError` — message and position only; the offending raw text
`This is not JSON` is not contained in the detail, refuting the claim
that the diagnostic includes the offending text. -/
theorem C6_bad_json_cex :
    parse_resume_with_llm (Except.ok "This is not JSON")
      = .httpExc 500
        "Failed to parse LLM response as JSON: Expecting value: line 1 column 1 (char 0)" ∧
    pyContains
      "Failed to parse LLM response as JSON: Expecting value: line 1 column 1 (char 0)"
      "This is not JSON" = false :=
  ⟨rfl, by decide⟩

/-- C6 (amended): for every reply whose post-processed text fails to
parse as JSON, the adapter fails hard with a 500 error whose detail is
the fixed prefix followed by the decode error rendered as message, line,
column and character position (never a silent empty result; the raw
reply text is not part of the detail). -/
theorem C6_bad_json_amended (raw : String) (e : JErr)
    (hparse : jsonLoads (llmPostprocess raw) = .error e) :
    parse_resume_with_llm (Except.ok raw)
      = .httpExc 500
        ("Failed to parse LLM response as JSON: " ++ jsonErrStr (llmPostprocess raw) e) := by
  simp [parse_resume_with_llm, hparse]

theorem C6_bad_json_amended_witness :
    parse_resume_with_llm (Except.ok "This is not JSON")
      = .httpExc 500
        ("Failed to parse LLM response as JSON: "
          ++ jsonErrStr (llmPostprocess "This is not JSON") ⟨"Expecting value", 0⟩) :=
  C6_bad_json_amended "This is not JSON" ⟨"Expecting value", 0⟩ (by rfl)

/-! ### C5: character-level lemmas about `replaceChars` -/

theorem replaceChars_fuel (pat rep : List Char) :
    ∀ (f1 f2 : Nat) (l : List Char), l.length ≤ f1 → l.length ≤ f2 →
      replaceChars pat rep f1 l = replaceChars pat rep f2 l := by
  intro f1
  induction f1 with
  | zero =>
    intro f2 l h1 _
    have hl : l = [] := List.eq_nil_of_length_eq_zero (by omega)
    subst hl
    cases f2 <;> rfl
  | succ f1' ih =>
    intro f2 l h1 h2
    cases l with
    | nil => cases f2 <;> rfl
    | cons c cs =>
      cases f2 with
      | zero => exact absurd h2 (by simp)
      | succ f2' =>
        simp only [replaceChars]
        by_cases hb : (!pat.isEmpty && List.isPrefixOf pat (c :: cs)) = true
        · rw [if_pos hb, if_pos hb]
          have hd : (cs.drop (pat.length - 1)).length ≤ f1' := by
            rw [List.length_drop]
            simp at h1
            omega
          have hd2 : (cs.drop (pat.length - 1)).length ≤ f2' := by
            rw [List.length_drop]
            simp at h2
            omega
          rw [ih f2' _ hd hd2]
        · rw [if_neg hb, if_neg hb]
          have hc1 : cs.length ≤ f1' := by simp at h1; omega
          have hc2 : cs.length ≤ f2' := by simp at h2; omega
          rw [ih f2' _ hc1 hc2]

theorem replaceChars_no_occ (pat rep : List Char) :
    ∀ (fuel : Nat) (l : List Char), ¬ pat <:+: l → replaceChars pat rep fuel l = l := by
  intro fuel
  induction fuel with
  | zero => intro l _; cases l <;> rfl
  | succ f ih =>
    intro l h
    cases l with
    | nil => rfl
    | cons c cs =>
      simp only [replaceChars]
      have hb : (!pat.isEmpty && List.isPrefixOf pat (c :: cs)) = false := by
        cases hpre : List.isPrefixOf pat (c :: cs) with
        | false => simp
        | true =>
          exfalso
          rw [ List.isPrefixOf_iff_prefix] at hpre
          exact h hpre.isInfix
      rw [if_neg (by simp [hb])]
      have hcs : ¬ pat <:+: cs := fun hc => h ( List.infix_cons hc)
      rw [ih cs hcs]

theorem replF_no_occ {pat : List Char} (rep : List Char) {l : List Char}
    (h : ¬ pat <:+: l) : replF pat rep l = l :=
  replaceChars_no_occ pat rep l.length l h

theorem replF_head (pat rep m : List Char) (hne : pat ≠ []) :
    replF pat rep (pat ++ m) = rep ++ replF pat rep m := by
  obtain ⟨p, pt, rfl⟩ : ∃ p pt, pat = p :: pt := by
    cases pat with
    | nil => exact absurd rfl hne
    | cons p pt => exact ⟨p, pt, rfl⟩
  show replaceChars (p :: pt) rep ((p :: pt ++ m).length) (p :: (pt ++ m)) = _
  have hlen : (p :: pt ++ m).length = (pt ++ m).length + 1 := by simp
  rw [hlen]
  simp only [replaceChars]
  have hb : (!(p :: pt).isEmpty && List.isPrefixOf (p :: pt) (p :: (pt ++ m))) = true := by
    rw [Bool.and_eq_true]
    refine ⟨by simp, ?_⟩
    rw [ List.isPrefixOf_iff_prefix]
    exact List.prefix_append _ _
  rw [if_pos hb]
  have hd : (pt ++ m).drop ((p :: pt).length - 1) = m := by
    have : (p :: pt).length - 1 = pt.length := by simp
    rw [this, List.drop_left]
  rw [hd]
  have : replaceChars (p :: pt) rep (pt ++ m).length m = replF (p :: pt) rep m := by
    apply replaceChars_fuel
    · simp
    · exact le_refl _
  rw [this]

theorem pref_through_append {p x m : List Char} (h : p <+: x ++ m)
    (hx : p.length ≤ x.length) : p <+: x := by
  have h1 : p = (x ++ m).take p.length := by
    obtain ⟨t, ht⟩ := h
    rw [← ht, List.take_left]
  rw [ List.take_append_of_le_length hx] at h1
  rw [h1]
  exact ⟨x.drop p.length, List.take_append_drop _ _⟩

/-- Scanning a region free of the marker ```: a pattern that starts with
the marker finds no match before the separating newline, so replacement
passes the region through untouched. -/
theorem replaceChars_scan (pat rep : List Char)
    (hp : ('`' :: '`' :: '`' :: []) <+: pat) :
    ∀ (l : List Char) (fuel : Nat) (m : List Char),
      (l ++ '\n' :: m).length ≤ fuel →
      ¬ (('`' :: '`' :: '`' :: []) <:+: (l ++ ['\n'])) →
      replaceChars pat rep fuel (l ++ '\n' :: m)
        = l ++ '\n' :: replaceChars pat rep (fuel - (l.length + 1)) m := by
  intro l
  induction l with
  | nil =>
    intro fuel m hfuel _
    cases fuel with
    | zero => exfalso; simp at hfuel
    | succ f =>
      simp only [List.nil_append]
      simp only [replaceChars]
      obtain ⟨t, hpt⟩ := hp
      have hb : (!pat.isEmpty && List.isPrefixOf pat ('\n' :: m)) = false := by
        cases hpre : List.isPrefixOf pat ('\n' :: m) with
        | false => simp
        | true =>
          exfalso
          rw [ List.isPrefixOf_iff_prefix] at hpre
          rw [← hpt] at hpre
          rw [show ('`' :: '`' :: '`' :: []) ++ t = '`' :: ('`' :: '`' :: t) from rfl] at hpre
          rw [ List.cons_prefix_cons] at hpre
          exact absurd hpre.1 (by decide)
      rw [if_neg (by simp [hb])]
      rw [show f + 1 - (([] : List Char).length + 1) = f by simp]
  | cons c l' ih =>
    intro fuel m hfuel hinf
    cases fuel with
    | zero => exfalso; simp at hfuel
    | succ f =>
      rw [show (c :: l') ++ '\n' :: m = c :: (l' ++ '\n' :: m) from rfl]
      simp only [replaceChars]
      have hb : (!pat.isEmpty && List.isPrefixOf pat (c :: (l' ++ '\n' :: m))) = false := by
        cases hpre : List.isPrefixOf pat (c :: (l' ++ '\n' :: m)) with
        | false => simp
        | true =>
          exfalso
          rw [ List.isPrefixOf_iff_prefix] at hpre
          have h3 : ('`' :: '`' :: '`' :: []) <+: c :: (l' ++ '\n' :: m) := hp.trans hpre
          cases l' with
          | nil =>
            rw [List.nil_append] at h3
            rw [ List.cons_prefix_cons] at h3
            obtain ⟨-, h4⟩ := h3
            rw [ List.cons_prefix_cons] at h4
            exact absurd h4.1 (by decide)
          | cons d l'' =>
            have heq : c :: ((d :: l'') ++ '\n' :: m) = ((c :: d :: l'') ++ ['\n']) ++ m := by
              simp
            rw [heq] at h3
            have hx := pref_through_append h3 (by simp)
            exact hinf ( List.IsPrefix.isInfix hx)
      rw [if_neg (by simp [hb])]
      have hinf' : ¬ (('`' :: '`' :: '`' :: []) <:+: (l' ++ ['\n'])) := by
        intro hc
        exact hinf ( List.infix_cons hc)
      have hf' : (l' ++ '\n' :: m).length ≤ f := by simp at hfuel ⊢; omega
      rw [ih f m hf' hinf']
      rw [show (f + 1) - ((c :: l').length + 1) = f - (l'.length + 1) by simp]
      rfl

/-- `replF` version of the scan lemma. -/
theorem replF_scan (pat rep : List Char) (hp : ('`' :: '`' :: '`' :: []) <+: pat)
    (l m : List Char) (hinf : ¬ (('`' :: '`' :: '`' :: []) <:+: (l ++ ['\n']))) :
    replF pat rep (l ++ '\n' :: m) = l ++ '\n' :: replF pat rep m := by
  unfold replF
  rw [replaceChars_scan pat rep hp l ((l ++ '\n' :: m).length) m (le_refl _) hinf]
  rw [show (l ++ '\n' :: m).length - (l.length + 1) = m.length by simp; omega]

/-- Appending a newline cannot create an occurrence of a newline-free
pattern. -/
theorem inf_snoc_nl {p r : List Char} (hnl : '\n' ∉ p) (hne : p ≠ [])
    (h : ¬ p <:+: r) : ¬ p <:+: (r ++ ['\n']) := by
  rintro ⟨s, t, hst⟩
  rcases List.eq_nil_or_concat t with rfl | ⟨t', a, rfl⟩
  · rw [List.append_nil] at hst
    obtain ⟨q, qs, hq⟩ : ∃ q qs, p.reverse = q :: qs := by
      cases hp : p.reverse with
      | nil =>
        exfalso
        have : p = [] := by simpa using congrArg List.reverse hp
        exact hne this
      | cons q qs => exact ⟨q, qs, rfl⟩
    have hrev := congrArg List.reverse hst
    rw [List.reverse_append, List.reverse_append, hq] at hrev
    have hqeq : q = '\n' := by
      have : q :: (qs ++ s.reverse) = '\n' :: r.reverse := by simpa using hrev
      injection this
    have hqp : q ∈ p := by
      rw [← List.mem_reverse, hq]
      exact List.mem_cons_self _ _
    exact hnl (hqeq ▸ hqp)
  · rw [List.concat_eq_append] at hst
    have h2 : (s ++ p ++ t') ++ [a] = r ++ ['\n'] := by
      rw [← hst]
      simp
    have h3 := List.append_inj' h2 (by rfl)
    exact h ⟨s, t', h3.1⟩

/-- Prepending a newline cannot create an occurrence of a newline-free
pattern. -/
theorem inf_cons_nl {p r : List Char} (hnl : '\n' ∉ p)
    (h : ¬ p <:+: r) : ¬ p <:+: ('\n' :: r) := by
  rintro ⟨s, t, hst⟩
  cases s with
  | nil =>
    cases p with
    | nil => exact h ⟨[], r, by simp⟩
    | cons p0 ps =>
      have hcons : p0 :: (ps ++ t) = '\n' :: r := by simpa using hst
      have hp0 : p0 = '\n' := by injection hcons
      exact hnl (hp0 ▸ List.mem_cons_self p0 ps)
  | cons s0 s' =>
    have hcons : s0 :: (s' ++ p ++ t) = '\n' :: r := by simpa using hst
    have h2 : s' ++ p ++ t = r := by injection hcons
    exact h ⟨s', t, h2⟩

/-! ### C5: lemmas about stripping -/

theorem rstrip_snoc_ws {x : List Char} {c : Char} (hc : isPyWs c = true) :
    rstripL (x ++ [c]) = rstripL x := by
  unfold rstripL
  rw [List.reverse_append]
  rw [show ([c] : List Char).reverse = [c] from rfl]
  rw [show ([c] : List Char) ++ x.reverse = c :: x.reverse from rfl]
  rw [List.dropWhile_cons, if_pos hc]

theorem lstrip_cons_ws {x : List Char} {c : Char} (hc : isPyWs c = true) :
    lstripL (c :: x) = lstripL x := by
  unfold lstripL
  rw [List.dropWhile_cons, if_pos hc]

theorem strip_nl_wrap (x : List Char) : stripL ('\n' :: (x ++ ['\n'])) = stripL x := by
  unfold stripL
  rw [show '\n' :: (x ++ ['\n']) = ('\n' :: x) ++ ['\n'] from rfl]
  rw [rstrip_snoc_ws (by decide)]
  unfold rstripL
  rw [List.reverse_cons]
  rw [List.dropWhile_append]
  by_cases he : (List.dropWhile isPyWs x.reverse).isEmpty = true
  · rw [if_pos he]
    rw [show List.dropWhile isPyWs ['\n'] = [] from by decide]
    have hx : List.dropWhile isPyWs x.reverse = [] := List.isEmpty_iff.mp he
    rw [hx]
  · rw [if_neg he]
    rw [List.reverse_append]
    rw [show (['\n'] : List Char).reverse = ['\n'] from rfl]
    rw [show (['\n'] : List Char) ++ (List.dropWhile isPyWs x.reverse).reverse
          = '\n' :: (List.dropWhile isPyWs x.reverse).reverse from rfl]
    exact lstrip_cons_ws (by decide)

theorem strip_fix_nonws {x : List Char} {a b : Char}
    (ha : isPyWs a = false) (hb : isPyWs b = false) :
    stripL (a :: (x ++ [b])) = a :: (x ++ [b]) := by
  unfold stripL
  have hr : rstripL (a :: (x ++ [b])) = a :: (x ++ [b]) := by
    unfold rstripL
    rw [show a :: (x ++ [b]) = (a :: x) ++ [b] from rfl]
    rw [List.reverse_append]
    rw [show ([b] : List Char).reverse = [b] from rfl]
    rw [show ([b] : List Char) ++ (a :: x).reverse = b :: (a :: x).reverse from rfl]
    rw [List.dropWhile_cons, if_neg (by simp [hb])]
    rw [List.reverse_cons, List.reverse_reverse]
  rw [hr]
  unfold lstripL
  rw [List.dropWhile_cons, if_neg (by simp [ha])]

theorem lstrip_sfx (l : List Char) : lstripL l <:+ l :=
  List.dropWhile_suffix _

theorem rstrip_pref (l : List Char) : rstripL l <+: l := by
  unfold rstripL
  obtain ⟨u, hu⟩ := List.dropWhile_suffix (l := l.reverse) isPyWs
  refine ⟨u.reverse, ?_⟩
  have h2 := congrArg List.reverse hu
  rw [List.reverse_append, List.reverse_reverse] at h2
  exact h2

theorem stripL_isInf (l : List Char) : stripL l <:+: l :=
  ( List.IsSuffix.isInfix (lstrip_sfx (rstripL l))).trans
    ( List.IsPrefix.isInfix (rstrip_pref l))

theorem hasSubList_iff (pat : List Char) :
    ∀ l : List Char, hasSubList pat l = true ↔ pat <:+: l := by
  intro l
  induction l with
  | nil =>
    show pat.isEmpty = true ↔ _
    rw [List.isEmpty_iff, List.infix_nil]
  | cons c cs ih =>
    show (List.isPrefixOf pat (c :: cs) || hasSubList pat cs) = true ↔ _
    rw [Bool.or_eq_true, ih,  List.isPrefixOf_iff_prefix,  List.infix_cons_iff]

/-! ### C5: assembly -/

theorem wrapJson_data (r : String) :
    (fencedWrapJson r).data = fenceJ ++ (('\n' :: r.data) ++ '\n' :: fenceM) := by
  show ("```json\n" ++ r ++ "\n```").data = _
  rw [String.data_append, String.data_append]
  show ('`' :: '`' :: '`' :: 'j' :: 's' :: 'o' :: 'n' :: '\n' :: [] : List Char) ++ r.data
      ++ ('\n' :: '`' :: '`' :: '`' :: [] : List Char) = _
  simp [fenceJ, fenceM]

theorem wrapPlain_data (r : String) :
    (fencedWrapPlain r).data = fenceM ++ (('\n' :: r.data) ++ '\n' :: fenceM) := by
  show ("```\n" ++ r ++ "\n```").data = _
  rw [String.data_append, String.data_append]
  show ('`' :: '`' :: '`' :: '\n' :: [] : List Char) ++ r.data
      ++ ('\n' :: '`' :: '`' :: '`' :: [] : List Char) = _
  simp [fenceM]

theorem wrapJson_strip (r : String) : pyStrip (fencedWrapJson r) = fencedWrapJson r := by
  apply String.ext
  show stripL (fencedWrapJson r).data = (fencedWrapJson r).data
  rw [wrapJson_data]
  rw [show fenceJ ++ (('\n' :: r.data) ++ '\n' :: fenceM)
        = '`' :: (('`' :: '`' :: 'j' :: 's' :: 'o' :: 'n' :: '\n' :: (r.data ++ ('\n' :: '`' :: '`' :: [])))
            ++ ['`']) from by simp [fenceJ, fenceM]]
  exact strip_fix_nonws (by decide) (by decide)

theorem wrapPlain_strip (r : String) : pyStrip (fencedWrapPlain r) = fencedWrapPlain r := by
  apply String.ext
  show stripL (fencedWrapPlain r).data = (fencedWrapPlain r).data
  rw [wrapPlain_data]
  rw [show fenceM ++ (('\n' :: r.data) ++ '\n' :: fenceM)
        = '`' :: (('`' :: '`' :: '\n' :: (r.data ++ ('\n' :: '`' :: '`' :: []))) ++ ['`'])
        from by simp [fenceM]]
  exact strip_fix_nonws (by decide) (by decide)

theorem wrapJson_starts (r : String) : pyStartsWith (fencedWrapJson r) "```json" = true := by
  show List.isPrefixOf ("```json".data) (fencedWrapJson r).data = true
  rw [wrapJson_data,  List.isPrefixOf_iff_prefix]
  exact List.prefix_append _ _

theorem isPref_j_nl (x : List Char) :
    List.isPrefixOf fenceJ ('`' :: '`' :: '`' :: '\n' :: x) = false := by
  show (('`' == '`') && (('`' == '`') && (('`' == '`')
      && (('j' == '\n') && List.isPrefixOf ('s' :: 'o' :: 'n' :: []) x)))) = false
  rw [show (('j' : Char) == '\n') = false from by decide]
  simp

theorem wrapPlain_starts_json (r : String) :
    pyStartsWith (fencedWrapPlain r) "```json" = false := by
  show List.isPrefixOf ("```json".data) (fencedWrapPlain r).data = false
  rw [wrapPlain_data]
  show List.isPrefixOf fenceJ ('`' :: '`' :: '`' :: '\n' :: (r.data ++ '\n' :: fenceM)) = false
  exact isPref_j_nl _

theorem wrapPlain_starts (r : String) : pyStartsWith (fencedWrapPlain r) "```" = true := by
  show List.isPrefixOf ("```".data) (fencedWrapPlain r).data = true
  rw [wrapPlain_data,  List.isPrefixOf_iff_prefix]
  exact List.prefix_append _ _

/-- The no-fence hypothesis, lifted across the added newline padding. -/
theorem noFence_padded {r : String} (hinf : ¬ (fenceM <:+: r.data)) :
    ¬ (fenceM <:+: (('\n' :: r.data) ++ ['\n'])) := by
  have h1 := inf_snoc_nl (p := fenceM) (by decide) (by decide) hinf
  exact inf_cons_nl (p := fenceM) (by decide) h1

theorem llmPost_wrapJson (r : String) (hinf : ¬ (fenceM <:+: r.data)) :
    llmPostprocess (fencedWrapJson r) = pyStrip r := by
  have hpad := noFence_padded hinf
  unfold llmPostprocess
  rw [wrapJson_strip]
  unfold stripFences
  rw [if_pos (wrapJson_starts r)]
  apply String.ext
  show stripL (replF fenceM [] (replF fenceJ [] (fencedWrapJson r).data)) = stripL r.data
  rw [wrapJson_data]
  rw [replF_head fenceJ [] (('\n' :: r.data) ++ '\n' :: fenceM) (by decide)]
  rw [List.nil_append]
  rw [replF_scan fenceJ [] (by decide) ('\n' :: r.data) fenceM hpad]
  rw [show replF fenceJ [] fenceM = fenceM from replF_no_occ [] (by decide)]
  rw [replF_scan fenceM [] (by decide) ('\n' :: r.data) fenceM hpad]
  rw [show replF fenceM [] fenceM = ([] : List Char) from rfl]
  rw [show (('\n' :: r.data) ++ '\n' :: ([] : List Char)) = '\n' :: (r.data ++ ['\n'])
        from by simp]
  exact strip_nl_wrap r.data

theorem llmPost_wrapPlain (r : String) (hinf : ¬ (fenceM <:+: r.data)) :
    llmPostprocess (fencedWrapPlain r) = pyStrip r := by
  have hpad := noFence_padded hinf
  unfold llmPostprocess
  rw [wrapPlain_strip]
  unfold stripFences
  rw [if_neg (by simp [wrapPlain_starts_json r])]
  rw [if_pos (wrapPlain_starts r)]
  apply String.ext
  show stripL (replF fenceM [] (fencedWrapPlain r).data) = stripL r.data
  rw [wrapPlain_data]
  rw [replF_head fenceM [] (('\n' :: r.data) ++ '\n' :: fenceM) (by decide)]
  rw [List.nil_append]
  rw [replF_scan fenceM [] (by decide) ('\n' :: r.data) fenceM hpad]
  rw [show replF fenceM [] fenceM = ([] : List Char) from rfl]
  rw [show (('\n' :: r.data) ++ '\n' :: ([] : List Char)) = '\n' :: (r.data ++ ['\n'])
        from by simp]
  exact strip_nl_wrap r.data

theorem llmPost_bare (r : String) (hinf : ¬ (fenceM <:+: r.data)) :
    llmPostprocess r = pyStrip r := by
  have h1 : pyStartsWith (pyStrip r) "```json" = false := by
    cases hb : pyStartsWith (pyStrip r) "```json" with
    | false => rfl
    | true =>
      exfalso
      have hpre : ("```json".data : List Char) <+: (pyStrip r).data := by
        rw [←  List.isPrefixOf_iff_prefix]
        exact hb
      have h3 : fenceM <+: (pyStrip r).data :=  List.IsPrefix.trans (by decide) hpre
      exact hinf (( List.IsPrefix.isInfix h3).trans (stripL_isInf r.data))
  have h2 : pyStartsWith (pyStrip r) "```" = false := by
    cases hb : pyStartsWith (pyStrip r) "```" with
    | false => rfl
    | true =>
      exfalso
      have hpre : ("```".data : List Char) <+: (pyStrip r).data := by
        rw [←  List.isPrefixOf_iff_prefix]
        exact hb
      exact hinf (( List.IsPrefix.isInfix hpre).trans (stripL_isInf r.data))
  unfold llmPostprocess stripFences
  rw [if_neg (by simp [h1]), if_neg (by simp [h2])]

/-- C5 counterexample: for the reply `{"a": "```"}` — valid JSON whose
string value contains the fence marker — processing the unwrapped reply
parses to the original object, while wrapping it in the labeled fence and
stripping parses to a different object: `replace` removes every
occurrence of the marker, including those inside the payload.  So the
wrapped and unwrapped replies do not parse to the same value, refuting
the claim as stated. -/
theorem C5_fence_equiv_cex :
    jsonLoads (llmPostprocess "\x7b\"a\": \"```\"\x7d")
      = .ok (.obj [("a", .str "```")]) ∧
    jsonLoads (llmPostprocess (fencedWrapJson "\x7b\"a\": \"```\"\x7d"))
      = .ok (.obj [("a", .str "")]) ∧
    jsonLoads (llmPostprocess (fencedWrapJson "\x7b\"a\": \"```\"\x7d"))
      ≠ jsonLoads (llmPostprocess "\x7b\"a\": \"```\"\x7d") := by
  refine ⟨rfl, rfl, ?_⟩
  intro h
  rw [show jsonLoads (llmPostprocess (fencedWrapJson "\x7b\"a\": \"```\"\x7d"))
        = .ok (.obj [("a", .str "")]) from rfl,
      show jsonLoads (llmPostprocess "\x7b\"a\": \"```\"\x7d")
        = .ok (.obj [("a", .str "```")]) from rfl] at h
  have h2 := congrArg
    (fun x => match x with
      | Except.ok (JValue.obj ((_, JValue.str s) :: _)) => s
      | _ => "") h
  simp only at h2
  exact absurd h2 (by decide)

/-- C5 (amended): for every reply in which the fence marker ``` does not
occur, wrapping in the labeled or the unlabeled fence and then applying
the fence stripping yields exactly the trimmed reply — the same text the
unwrapped reply post-processes to — so JSON parsing succeeds identically
and with the same value for both.  (For replies containing ``` the
equivalence fails, because `replace` removes every occurrence.) -/
theorem C5_fence_equiv_amended (r : String) (hr : pyContains r "```" = false) :
    llmPostprocess (fencedWrapJson r) = pyStrip r ∧
    llmPostprocess (fencedWrapPlain r) = pyStrip r ∧
    llmPostprocess r = pyStrip r ∧
    jsonLoads (llmPostprocess (fencedWrapJson r)) = jsonLoads (llmPostprocess r) ∧
    jsonLoads (llmPostprocess (fencedWrapPlain r)) = jsonLoads (llmPostprocess r) := by
  have hinf : ¬ (fenceM <:+: r.data) := by
    intro hc
    have h1 : hasSubList fenceM r.data = true := (hasSubList_iff fenceM r.data).mpr hc
    have h2 : pyContains r "```" = true := h1
    rw [hr] at h2
    exact absurd h2 (by decide)
  refine ⟨llmPost_wrapJson r hinf, llmPost_wrapPlain r hinf, llmPost_bare r hinf, ?_, ?_⟩
  · rw [llmPost_wrapJson r hinf, llmPost_bare r hinf]
  · rw [llmPost_wrapPlain r hinf, llmPost_bare r hinf]

theorem C5_fence_equiv_amended_witness :
    llmPostprocess (fencedWrapJson "\x7b\"x\": 1\x7d") = pyStrip "\x7b\"x\": 1\x7d" ∧
    llmPostprocess (fencedWrapPlain "\x7b\"x\": 1\x7d") = pyStrip "\x7b\"x\": 1\x7d" ∧
    llmPostprocess "\x7b\"x\": 1\x7d" = pyStrip "\x7b\"x\": 1\x7d" ∧
    jsonLoads (llmPostprocess (fencedWrapJson "\x7b\"x\": 1\x7d"))
      = jsonLoads (llmPostprocess "\x7b\"x\": 1\x7d") ∧
    jsonLoads (llmPostprocess (fencedWrapPlain "\x7b\"x\": 1\x7d"))
      = jsonLoads (llmPostprocess "\x7b\"x\": 1\x7d") :=
  C5_fence_equiv_amended "\x7b\"x\": 1\x7d" (by decide)

end ResumeParser
